import Mathlib

/-!
Verification of the availability-set VM-set implementation in
`vendor/k8s.io/legacy-cloud-providers/azure/azure_standard.go`.

Go strings are modelled as lists of characters (`Str`), Go's fallible calls as
`Except Str`, and Go nil-pointer dereferences as an explicit `panicked` / `none`
outcome.  External collaborators (the compute and network clients) appear as
explicit inputs: the fetched interface, the VM list, the result of the
interface write.
-/

set_option maxHeartbeats 1000000

deriving instance DecidableEq for Except

namespace AzureStandard

/-- Go strings, modelled as lists of characters. -/
abbrev Str := List Char

/-- Model of Go `strings.ToLower` for one character (ASCII folding). -/
def goToLower (c : Char) : Char :=
  if 'A' ≤ c ∧ c ≤ 'Z' then Char.ofNat (c.toNat + 32) else c

/-- Model of Go `strings.ToUpper` for one character (ASCII folding). -/
def goToUpper (c : Char) : Char :=
  if 'a' ≤ c ∧ c ≤ 'z' then Char.ofNat (c.toNat - 32) else c

/-- Model of Go `strings.ToLower`. -/
def strToLower (s : Str) : Str := s.map goToLower

/-- Model of Go `strings.ToUpper`. -/
def strToUpper (s : Str) : Str := s.map goToUpper

/-- Model of Go `strings.EqualFold` (case-insensitive equality, ASCII folding). -/
def eqFold (a b : Str) : Bool := strToUpper a == strToUpper b

/-- Model of Go `strings.HasPrefix s pre`. -/
def strStartsWith (s pre : Str) : Bool := pre.isPrefixOf s

/-- Model of Go `strings.Split` for a single-character separator (every call of
    `getLastSegment` in the source passes the separator `"/"`). -/
def splitOnChar (sep : Char) : Str → List Str
  | [] => [[]]
  | c :: cs =>
    if c = sep then [] :: splitOnChar sep cs
    else
      match splitOnChar sep cs with
      | [] => [[c]]
      | p :: ps => (c :: p) :: ps

/-- `getLastSegment` (azure_standard.go:174): the last `sep`-separated segment
    of an identifier; an error when that segment has length zero. -/
def getLastSegment (ID : Str) (sep : Char) : Except Str Str :=
  if (splitOnChar sep ID).getLastD [] = [] then
    Except.error ("resource name was missing from identifier".data)
  else Except.ok ((splitOnChar sep ID).getLastD [])

/-- `getStandardMachineID` (azure_standard.go:80): instantiates
    `machineIDTemplate` with the resource group lower-cased. -/
def getStandardMachineID (subscriptionID resourceGroup machineName : Str) : Str :=
  "/subscriptions/".data ++ subscriptionID ++ "/resourceGroups/".data ++
    strToLower resourceGroup ++
    "/providers/Microsoft.Compute/virtualMachines/".data ++ machineName

/-- The `for smallest < loadBalancerMaximumPriority` loop of
    `getNextAvailablePriority` (azure_standard.go:351).  The loop is given fuel
    `3596 = 4096 - 500`, enough for every guard-passing iteration starting from
    `500`, so exhausting the fuel coincides with the guard failing. -/
def nextPriorityLoop (rules : List Int) : Nat → Int → Except Str Int
  | 0, _ => Except.error ("securityGroup priorities are exhausted".data)
  | fuel + 1, smallest =>
    if smallest < 4096 then
      if rules.any (fun r => r == smallest) then nextPriorityLoop rules fuel (smallest + 1)
      else Except.ok smallest
    else Except.error ("securityGroup priorities are exhausted".data)

/-- `getNextAvailablePriority` (azure_standard.go:351): the rules' priorities
    (`*rule.Priority`, assumed present) are the `Int` inputs. -/
def getNextAvailablePriority (rules : List Int) : Except Str Int :=
  nextPriorityLoop rules 3596 500

/-- Rendering of a Go `%d` verb for an integer. -/
def intToStr (i : Int) : Str := (toString i).data

/-- Rendering of a Go `%d` verb for a natural number. -/
def natToStr (n : Nat) : Str := (toString n).data

/-- Rendering of a Go `%v` verb for a boolean. -/
def boolToStr : Bool → Str
  | true => "true".data
  | false => "false".data

/-- Rendering of a Go `%q` verb (quotation; escaping is not needed here). -/
def quoteStr (s : Str) : Str := '"' :: (s ++ ['"'])

/-- The base rule name `"<prefix>-<protocol>-<port>"` of
    `getLoadBalancerRuleName` (azure_standard.go:285).  The rule prefix
    `az.getRulePrefix(service)` is produced by `GetLoadBalancerName` outside
    this file and is an input here. -/
def baseRuleName (rulePre protocol : Str) (port : Int) : Str :=
  rulePre ++ "-".data ++ protocol ++ "-".data ++ intToStr port

/-- `getLoadBalancerRuleName` (azure_standard.go:283).  `none` models the Go
    slice panic in `subnetSegment[:80-len(ruleName)-1]` when the index is
    negative. -/
def getLoadBalancerRuleName (rulePre protocol : Str) (port : Int)
    (sub : Option Str) : Option Str :=
  let ruleName := baseRuleName rulePre protocol port
  match sub with
  | none => some ruleName
  | some subnetName =>
    if 80 < ruleName.length + subnetName.length + 1 then
      let k : Int := 80 - ruleName.length - 1
      if k < 0 then none
      else some (rulePre ++ "-".data ++ subnetName.take k.toNat ++ "-".data ++
        protocol ++ "-".data ++ intToStr port)
    else some (rulePre ++ "-".data ++ subnetName ++ "-".data ++ protocol ++
      "-".data ++ intToStr port)

/-- Hexadecimal digit test for IPv6 groups. -/
def isHexDigitChar (c : Char) : Bool :=
  c.isDigit || ('a' ≤ c && c ≤ 'f') || ('A' ≤ c && c ≤ 'F')

/-- A 1-4 character hexadecimal IPv6 group. -/
def validHexGroup (g : Str) : Bool :=
  decide (1 ≤ g.length) && decide (g.length ≤ 4) && g.all isHexDigitChar

/-- Decimal value of a digit string (`none` on a non-digit). -/
def digitsVal : Str → Nat → Option Nat
  | [], acc => some acc
  | c :: cs, acc =>
    if c.isDigit then digitsVal cs (acc * 10 + (c.toNat - 48)) else none

/-- One dotted-quad component: 1-3 decimal digits valued at most 255. -/
def validQuadPart (g : Str) : Bool :=
  decide (1 ≤ g.length) && decide (g.length ≤ 3) &&
    match digitsVal g 0 with
    | some v => decide (v ≤ 255)
    | none => false

/-- A dotted IPv4 quad `a.b.c.d`. -/
def validIPv4Str (s : Str) : Bool :=
  match splitOnChar '.' s with
  | [a, b, c, d] => validQuadPart a && validQuadPart b && validQuadPart c && validQuadPart d
  | _ => false

/-- 16-bit units contributed by a run of `:`-separated groups; when `v4Tail`
    is true the last group may instead be a dotted IPv4 tail worth two units. -/
def groupUnits (v4Tail : Bool) : List Str → Option Nat
  | [] => some 0
  | [g] =>
    if validHexGroup g then some 1
    else if v4Tail && validIPv4Str g then some 2
    else none
  | g :: gs => if validHexGroup g then (groupUnits v4Tail gs).map (· + 1) else none

/-- Split a string at its first occurrence of `"::"` (the two colons removed). -/
def findDoubleColon : Str → Option (Str × Str)
  | [] => none
  | [_] => none
  | a :: b :: rest =>
    if a = ':' ∧ b = ':' then some ([], rest)
    else (findDoubleColon (b :: rest)).map (fun p => (a :: p.1, p.2))

/-- Units of one side of a `::` elision (an empty side contributes zero). -/
def sideUnits (v4Tail : Bool) (s : Str) : Option Nat :=
  if s.isEmpty then some 0 else groupUnits v4Tail (splitOnChar ':' s)

/-- Modelled from the spec: `utilnet.IsIPv6String` (vendored `k8s.io/utils/net`,
    not under src/) — whether the service's cluster IP is an IPv6 literal:
    `:`-separated 1-4 digit hexadecimal groups, at most one `::` elision, an
    optional dotted IPv4 tail, eight 16-bit units in total (fewer than eight
    exactly when elided). -/
def isIPv6String (s : Str) : Bool :=
  match findDoubleColon s with
  | some (l, r) =>
    (match r with
     | ':' :: _ => false
     | _ =>
       (findDoubleColon r).isNone &&
         (match sideUnits false l, sideUnits true r with
          | some ul, some ur => decide (ul + ur ≤ 7)
          | _, _ => false))
  | none =>
    match groupUnits true (splitOnChar ':' s) with
    | some u => u == 8
    | none => false

/-- `getBackendPoolName` (azure_standard.go:274): the service's cluster IP
    (`service.Spec.ClusterIP`) decides the dual-stack suffix. -/
def getBackendPoolName (clusterName : Str) (clusterIP : Str) : Str :=
  if isIPv6String clusterIP then clusterName ++ "-IPv6".data else clusterName

/-- `serviceOwnsRule` (azure_standard.go:325); the derived rule prefix
    `az.getRulePrefix(service)` is an input. -/
def serviceOwnsRule (rulePre rule : Str) : Bool :=
  strStartsWith (strToUpper rule) (strToUpper rulePre)

/-- `serviceOwnsFrontendIP` (azure_standard.go:330); the derived base name
    `az.GetLoadBalancerName(...)` is an input. -/
def serviceOwnsFrontendIP (baseName fipName : Str) : Bool :=
  strStartsWith fipName baseName

/-- `network.IPVersion` of an IP configuration. -/
inductive IPVersion
  | v4
  | v6
deriving DecidableEq

/-- `network.BackendAddressPool`: referenced by its identifier (a nil pointer
    modelled as `none`). -/
structure BackendAddressPool where
  id : Option Str
deriving DecidableEq

/-- `network.InterfaceIPConfiguration`: the fields `EnsureHostInPool` reads. -/
structure InterfaceIPConfiguration where
  primary : Option Bool
  privateIPAddress : Option Str
  privateIPAddressVersion : IPVersion
  loadBalancerBackendAddressPools : Option (List BackendAddressPool)
deriving DecidableEq

/-- `network.Interface`: the fields `EnsureHostInPool` reads. -/
structure NetworkInterface where
  name : Str
  provisioningState : Option Str
  ipConfigurations : Option (List InterfaceIPConfiguration)
deriving DecidableEq

/-- Result of a Go call that may return an error or dereference a nil pointer. -/
inductive GoR (α : Type)
  | panicked
  | failed (msg : Str)
  | ok (val : α)
deriving DecidableEq

/-- `nicFailedState` (azure_standard.go:67). -/
def nicFailedState : Str := "Failed".data

/-- The `for _, ref := range *nic.IPConfigurations` scan of
    `getPrimaryIPConfig` (azure_standard.go:231): first configuration whose
    `*ref.Primary` is true; `panicked` when a `Primary` pointer is nil. -/
def findPrimaryCfg (nicName : Str) :
    List InterfaceIPConfiguration → GoR InterfaceIPConfiguration
  | [] =>
    GoR.failed ("failed to determine the primary ipconfig. nicname=".data ++ quoteStr nicName)
  | c :: cs =>
    match c.primary with
    | none => GoR.panicked
    | some true => GoR.ok c
    | some false => findPrimaryCfg nicName cs

/-- `getPrimaryIPConfig` (azure_standard.go:222): a single configuration is
    returned unconditionally; otherwise the explicit primary is searched. -/
def getPrimaryIPConfig (nic : NetworkInterface) : GoR InterfaceIPConfiguration :=
  match nic.ipConfigurations with
  | none =>
    GoR.failed ("nic.IPConfigurations for nic (nicname=".data ++ quoteStr nic.name ++ ") is nil".data)
  | some [c] => GoR.ok c
  | some cfgs => findPrimaryCfg nic.name cfgs

/-- The scan of `getIPConfigByIPFamily` (azure_standard.go:252): first
    configuration with a private address of the requested family. -/
def findCfgByFamily (nicName : Str) (IPv6 : Bool) (ipVersion : IPVersion) :
    List InterfaceIPConfiguration → GoR InterfaceIPConfiguration
  | [] =>
    GoR.failed ("failed to determine the ipconfig(IPv6=".data ++ boolToStr IPv6 ++
      "). nicname=".data ++ quoteStr nicName)
  | c :: cs =>
    if c.privateIPAddress.isSome ∧ c.privateIPAddressVersion = ipVersion then GoR.ok c
    else findCfgByFamily nicName IPv6 ipVersion cs

/-- `getIPConfigByIPFamily` (azure_standard.go:241). -/
def getIPConfigByIPFamily (nic : NetworkInterface) (IPv6 : Bool) :
    GoR InterfaceIPConfiguration :=
  match nic.ipConfigurations with
  | none =>
    GoR.failed ("nic.IPConfigurations for nic (nicname=".data ++ quoteStr nic.name ++ ") is nil".data)
  | some cfgs => findCfgByFamily nic.name IPv6 (if IPv6 then IPVersion.v6 else IPVersion.v4) cfgs

/-- The dual-stack dispatch of `EnsureHostInPool` (azure_standard.go:758-770):
    with dual-stack disabled and an IPv4 service the designated primary
    configuration is used, otherwise the configuration of the service's IP
    family. -/
def resolveIPConfig (ipv6DualStackEnabled IPv6 : Bool) (nic : NetworkInterface) :
    GoR InterfaceIPConfiguration :=
  if !ipv6DualStackEnabled && !IPv6 then getPrimaryIPConfig nic
  else getIPConfigByIPFamily nic IPv6

/-- Modelled from the spec: the parent load-balancer name of a backend-pool
    identifier, per the fixed positional template
    `/subscriptions/_/resourceGroups/_/providers/Microsoft.Network/loadBalancers/<lb>/backendAddressPools/<pool>`
    (the `backendPoolIDRE` pattern, azure_standard.go:76, whose consumer
    `isBackendPoolOnSameLB` is not under src/). -/
def extractLBNameFromBackendPoolID (id : Str) : Option Str :=
  match splitOnChar '/' id with
  | [emptyLead, subs, _, rgs, _, provs, netProv, lbs, lbName, pools, _] =>
    if emptyLead = [] ∧ subs = "subscriptions".data ∧ rgs = "resourceGroups".data ∧
        provs = "providers".data ∧ netProv = "Microsoft.Network".data ∧
        lbs = "loadBalancers".data ∧ pools = "backendAddressPools".data
    then some lbName
    else none
  | _ => none

/-- The scan of `isBackendPoolOnSameLB` over the existing pool memberships:
    error on a malformed identifier, otherwise the first membership whose
    parent load balancer differs from the target's is reported. -/
def sameLBLoop (newLBName : Str) : List Str → Except Str (Bool × Str)
  | [] => Except.ok (true, [])
  | id :: rest =>
    match extractLBNameFromBackendPoolID id with
    | none => Except.error ("existing backendPoolID is in wrong format".data)
    | some lbName =>
      if eqFold lbName newLBName then sameLBLoop newLBName rest
      else Except.ok (false, lbName)

/-- Modelled from the spec: `isBackendPoolOnSameLB` (not under src/) — under
    the standard SKU an interface may not straddle two load balancers, so the
    target pool's parent load balancer is compared with the parent of every
    existing membership. -/
def isBackendPoolOnSameLB (newBackendPoolID : Str) (existingBackendPools : List Str) :
    Except Str (Bool × Str) :=
  match extractLBNameFromBackendPoolID newBackendPoolID with
  | none => Except.error ("new backendPoolID is in wrong format".data)
  | some newLBName => sameLBLoop newLBName existingBackendPools

/-- The `foundPool` scan of `EnsureHostInPool` (azure_standard.go:777): `none`
    models the nil-pointer dereference `*existingPool.ID`. -/
def poolScanFound (backendPoolID : Str) : List BackendAddressPool → Option Bool
  | [] => some false
  | p :: ps =>
    match p.id with
    | none => none
    | some i => if eqFold backendPoolID i then some true else poolScanFound backendPoolID ps

/-- Outcome of `as.getPrimaryInterfaceWithVMSet` (an external read round-trip
    plus the vmSet check), as observed by `EnsureHostInPool`. -/
inductive FetchResult
  | notInVMSet
  | fetchErr (msg : Str)
  | ok (nic : NetworkInterface)
deriving DecidableEq

/-- Observable outcome of one `EnsureHostInPool` call: whether
    `CreateOrUpdateInterface` was invoked, and the returned error (`none` is
    Go's nil). -/
structure EnsureHostOutcome where
  updateIssued : Bool
  err : Option Str
deriving DecidableEq

/-- `EnsureHostInPool` (azure_standard.go:739).  The interface fetch and the
    interface write are external round-trips, passed in as `fetch` and
    `updateResult`; the result is `none` when the call dereferences a nil
    pointer (nil `Primary` flag or nil pool id). -/
def EnsureHostInPool (ipv6DualStackEnabled useStandardLoadBalancer : Bool)
    (clusterIP backendPoolID : Str) (fetch : FetchResult)
    (updateResult : Option Str) : Option EnsureHostOutcome :=
  match fetch with
  | FetchResult.notInVMSet => some ⟨false, none⟩
  | FetchResult.fetchErr e => some ⟨false, some e⟩
  | FetchResult.ok nic =>
    if nic.provisioningState = some nicFailedState then some ⟨false, none⟩
    else
      match resolveIPConfig ipv6DualStackEnabled (isIPv6String clusterIP) nic with
      | GoR.panicked => none
      | GoR.failed e => some ⟨false, some e⟩
      | GoR.ok primaryIPConfig =>
        let newBackendPools := primaryIPConfig.loadBalancerBackendAddressPools.getD []
        match poolScanFound backendPoolID newBackendPools with
        | none => none
        | some true => some ⟨false, none⟩
        | some false =>
          if useStandardLoadBalancer ∧ 0 < newBackendPools.length then
            match isBackendPoolOnSameLB backendPoolID
                (newBackendPools.filterMap BackendAddressPool.id) with
            | Except.error e => some ⟨false, some e⟩
            | Except.ok (false, _) => some ⟨false, none⟩
            | Except.ok (true, _) => some ⟨true, updateResult⟩
          else some ⟨true, updateResult⟩

/-- `v1.Node`: name and labels. -/
structure GoNode where
  name : Str
  labels : List (Str × Str)
deriving DecidableEq

/-- `compute.VirtualMachine`: name and optional availability-set reference. -/
structure GoVM where
  name : Str
  availabilitySetID : Option Str
deriving DecidableEq

/-- `isMasterNode` (azure_standard.go:165). -/
def isMasterNode (node : GoNode) : Bool :=
  match node.labels.lookup ("kubernetes.io/role".data) with
  | some v => v == "master".data
  | none => false

/-- The `vmNameToAvailabilitySetID` map of `getAgentPoolAvailabiliySets`
    (azure_standard.go:583): built by forward iteration over the listed VMs,
    so a later VM with the same name overwrites an earlier one. -/
def vmNameToAvailabilitySetID (vms : List GoVM) (nodeName : Str) : Option Str :=
  (vms.foldl (fun acc vm =>
    match vm.availabilitySetID with
    | some asID => (vm.name, asID) :: acc
    | none => acc) []).lookup nodeName

/-- The node loop of `getAgentPoolAvailabiliySets` (azure_standard.go:592).
    `seenIDs` mirrors the source's `availabilitySetIDs` set: it is consulted
    but — exactly as in the source, which never inserts into the set — it is
    never extended. -/
def agentPoolLoop (vms : List GoVM) :
    List GoNode → List Str → List Str → Except Str (List Str)
  | [], _, acc => Except.ok acc.reverse
  | node :: rest, seenIDs, acc =>
    if isMasterNode node then agentPoolLoop vms rest seenIDs acc
    else
      match vmNameToAvailabilitySetID vms node.name with
      | none => Except.error ("Node (".data ++ node.name ++ ") - has no availability sets".data)
      | some asID =>
        if seenIDs.contains asID then agentPoolLoop vms rest seenIDs acc
        else
          match getLastSegment asID '/' with
          | Except.error e => Except.error e
          | Except.ok asName => agentPoolLoop vms rest seenIDs (strToLower asName :: acc)

/-- `getAgentPoolAvailabiliySets` (azure_standard.go:577): the VM list is the
    result of the external `ListVirtualMachines` call. -/
def getAgentPoolAvailabiliySets (vms : List GoVM) (nodes : List GoNode) :
    Except Str (List Str) :=
  agentPoolLoop vms nodes [] []

/-- Go byte-wise string order, as used by `sort.Strings`. -/
def strLe : Str → Str → Bool
  | [], _ => true
  | _ :: _, [] => false
  | a :: as, b :: bs => if a < b then true else if b < a then false else strLe as bs

/-- Ordered insertion for `sortStrings`. -/
def insertSorted (x : Str) : List Str → List Str
  | [] => [x]
  | y :: ys => if strLe x y then x :: y :: ys else y :: insertSorted x ys

/-- Model of `sort.Strings` (azure_standard.go:642).  Sorting a list of
    strings has a unique result (equal elements are identical), so any
    comparison sort represents it. -/
def sortStrings : List Str → List Str
  | [] => []
  | x :: xs => insertSorted x (sortStrings xs)

/-- The service's load-balancer-mode marker: absent, the auto marker, or an
    explicit list of VM-group names. -/
inductive LBMode
  | unspecified
  | autoMode
  | namedSets (names : List Str)
deriving DecidableEq

/-- Modelled from the spec: `getServiceLoadBalancerMode` (not under src/) —
    returns whether the marker is present, whether it is the auto marker, and
    the explicit name list otherwise. -/
def getServiceLoadBalancerMode : LBMode → Bool × Bool × List Str
  | LBMode.unspecified => (false, false, [])
  | LBMode.autoMode => (true, true, [])
  | LBMode.namedSets l => (true, false, l)

/-- The validation loop of `GetVMSetNames` (azure_standard.go:648): for each
    service-named set, the first case-insensitive match replaces the entry.
    `found` mirrors the source's flag, which is declared outside the loop and
    therefore stays true for all later entries once any entry has matched. -/
def validateLoop (sortedNames : List Str) :
    List Str → Bool → List Str → Except Str (List Str)
  | [], _, acc => Except.ok acc.reverse
  | entry :: rest, found, acc =>
    match sortedNames.find? (fun asName => eqFold asName entry) with
    | some matched => validateLoop sortedNames rest true (matched :: acc)
    | none =>
      if found then validateLoop sortedNames rest found (entry :: acc)
      else Except.error ("availability set (".data ++ entry ++ ") - not found".data)

/-- `GetVMSetNames` (azure_standard.go:625).  The primary availability-set
    name comes from configuration and the VM list from the external
    `ListVirtualMachines` call. -/
def GetVMSetNames (primaryAvailabilitySetName : Str) (vms : List GoVM)
    (mode : LBMode) (nodes : List GoNode) : Except Str (List Str) :=
  let hmode := getServiceLoadBalancerMode mode
  if !hmode.1 then Except.ok [primaryAvailabilitySetName]
  else
    match getAgentPoolAvailabiliySets vms nodes with
    | Except.error e => Except.error e
    | Except.ok availabilitySetNames =>
      if availabilitySetNames.isEmpty then
        Except.error ("No availability sets found for nodes, node count(".data ++
          natToStr nodes.length ++ ")".data)
      else
        let sortedNames := sortStrings availabilitySetNames
        if !hmode.2.1 then
          if hmode.2.2.isEmpty then
            Except.error ("service annotation for LoadBalancerMode is empty, it should have __auto__ or availability sets value".data)
          else validateLoop sortedNames hmode.2.2 false []
        else Except.ok sortedNames

end AzureStandard

namespace AzureStandard

theorem nextPriorityLoop_ok (rules : List Int) :
    ∀ (fuel : Nat) (smallest p : Int),
      nextPriorityLoop rules fuel smallest = Except.ok p →
      smallest ≤ p ∧ p < 4096 ∧ p ∉ rules ∧ ∀ q, smallest ≤ q → q < p → q ∈ rules := by
  intro fuel
  induction fuel with
  | zero => intro smallest p h; simp [nextPriorityLoop] at h
  | succ f ih =>
    intro smallest p h
    simp only [nextPriorityLoop] at h
    by_cases hg : smallest < 4096
    · rw [if_pos hg] at h
      by_cases ha : rules.any (fun r => r == smallest) = true
      · rw [if_pos ha] at h
        obtain ⟨h1, h2, h3, h4⟩ := ih (smallest + 1) p h
        have hmem : smallest ∈ rules := by
          rcases List.any_eq_true.mp ha with ⟨r, hr, hbeq⟩
          rw [beq_iff_eq] at hbeq
          rw [← hbeq]
          exact hr
        refine ⟨by omega, h2, h3, ?_⟩
        intro q hq1 hq2
        by_cases hqe : q = smallest
        · rw [hqe]; exact hmem
        · exact h4 q (by omega) hq2
      · rw [if_neg ha] at h
        have hp : smallest = p := by injection h
        subst hp
        refine ⟨le_refl _, hg, ?_, ?_⟩
        · intro hmem
          exact ha (List.any_eq_true.mpr ⟨smallest, hmem, beq_self_eq_true _⟩)
        · intro q hq1 hq2
          exact absurd (lt_of_le_of_lt hq1 hq2) (lt_irrefl _)
    · rw [if_neg hg] at h
      simp at h

theorem nextPriorityLoop_exhausted (rules : List Int) :
    ∀ (fuel : Nat) (smallest : Int),
      (∀ v : Int, smallest ≤ v → v < 4096 → v ∈ rules) →
      nextPriorityLoop rules fuel smallest =
        Except.error ("securityGroup priorities are exhausted".data) := by
  intro fuel
  induction fuel with
  | zero => intro smallest _; rfl
  | succ f ih =>
    intro smallest h
    simp only [nextPriorityLoop]
    by_cases hg : smallest < 4096
    · rw [if_pos hg]
      have hmem : smallest ∈ rules := h smallest le_rfl hg
      have ha : rules.any (fun r => r == smallest) = true :=
        List.any_eq_true.mpr ⟨smallest, hmem, beq_self_eq_true _⟩
      rw [if_pos ha]
      exact ih (smallest + 1) (fun v h1 h2 => h v (by omega) h2)
    · rw [if_neg hg]

/-- Claim C3: `getNextAvailablePriority` returns the smallest value in
    `[500, 4096)` held by no rule; if every value in that range is held it
    fails with the priority-exhausted error; on rules holding exactly
    `{500, 501, 502}` it returns `503`. -/
theorem getNextAvailablePriority_correct (rules : List Int) :
    (∀ p, getNextAvailablePriority rules = Except.ok p →
      500 ≤ p ∧ p < 4096 ∧ p ∉ rules ∧ ∀ q, 500 ≤ q → q < p → q ∈ rules) ∧
    ((∀ v : Int, 500 ≤ v → v < 4096 → v ∈ rules) →
      getNextAvailablePriority rules =
        Except.error ("securityGroup priorities are exhausted".data)) ∧
    getNextAvailablePriority [500, 501, 502] = Except.ok 503 := by
  refine ⟨?_, ?_, by decide⟩
  · intro p h
    exact nextPriorityLoop_ok rules 3596 500 p h
  · intro h
    exact nextPriorityLoop_exhausted rules 3596 500 h

/-- Witness for claim C3 at the concrete rule set `{500, 501, 502}`. -/
theorem getNextAvailablePriority_correct_witness :
    500 ≤ (503 : Int) ∧ (503 : Int) < 4096 ∧
      (503 : Int) ∉ ([500, 501, 502] : List Int) ∧
      ∀ q : Int, 500 ≤ q → q < 503 → q ∈ ([500, 501, 502] : List Int) :=
  (getNextAvailablePriority_correct [500, 501, 502]).1 503 (by decide)

theorem splitOnChar_ne_nil (sep : Char) : ∀ s : Str, splitOnChar sep s ≠ [] := by
  intro s
  induction s with
  | nil => simp [splitOnChar]
  | cons c cs ih =>
    simp only [splitOnChar]
    by_cases hc : c = sep
    · rw [if_pos hc]; simp
    · rw [if_neg hc]
      cases hL : splitOnChar sep cs with
      | nil => simp
      | cons p ps => simp

theorem splitOnChar_cons_sep (sep : Char) (cs : Str) :
    splitOnChar sep (sep :: cs) = [] :: splitOnChar sep cs := by
  simp [splitOnChar]

theorem splitOnChar_cons_ne (sep c : Char) (cs : Str) (hc : c ≠ sep) (p : Str)
    (ps : List Str) (hL : splitOnChar sep cs = p :: ps) :
    splitOnChar sep (c :: cs) = (c :: p) :: ps := by
  have h : splitOnChar sep (c :: cs) =
      match splitOnChar sep cs with
      | [] => [[c]]
      | p :: ps => (c :: p) :: ps := by
    simp [splitOnChar, hc]
  rw [h, hL]

theorem splitOnChar_length_two (sep : Char) (rest : Str) :
    ∀ A : Str, 2 ≤ (splitOnChar sep (A ++ sep :: rest)).length := by
  intro A
  induction A with
  | nil =>
    rw [List.nil_append, splitOnChar_cons_sep]
    have h2 := List.length_pos.mpr (splitOnChar_ne_nil sep rest)
    simp only [List.length_cons]
    omega
  | cons c A ih =>
    rw [List.cons_append]
    by_cases hc : c = sep
    · subst hc
      rw [splitOnChar_cons_sep]
      have h2 := List.length_pos.mpr (splitOnChar_ne_nil c (A ++ c :: rest))
      simp only [List.length_cons]
      omega
    · cases hL : splitOnChar sep (A ++ sep :: rest) with
      | nil => exact absurd hL (splitOnChar_ne_nil sep _)
      | cons p ps =>
        rw [splitOnChar_cons_ne sep c _ hc p ps hL]
        rw [hL] at ih
        simp only [List.length_cons] at ih ⊢
        omega

theorem splitOnChar_append_sep (sep : Char) (rest : Str) :
    ∀ A : Str, (splitOnChar sep (A ++ sep :: rest)).getLastD [] =
      (splitOnChar sep rest).getLastD [] := by
  intro A
  induction A with
  | nil =>
    rw [List.nil_append, splitOnChar_cons_sep, List.getLastD_cons]
  | cons c A ih =>
    rw [List.cons_append]
    by_cases hc : c = sep
    · subst hc
      rw [splitOnChar_cons_sep, List.getLastD_cons]
      exact ih
    · cases hL : splitOnChar sep (A ++ sep :: rest) with
      | nil => exact absurd hL (splitOnChar_ne_nil sep _)
      | cons p ps =>
        rw [splitOnChar_cons_ne sep c _ hc p ps hL]
        rw [hL] at ih
        have hlen := splitOnChar_length_two sep rest A
        rw [hL] at hlen
        cases ps with
        | nil => simp at hlen
        | cons q qs =>
          rw [List.getLastD_cons, List.getLastD_cons] at ih ⊢
          exact ih

theorem splitOnChar_no_sep (sep : Char) : ∀ s : Str, sep ∉ s → splitOnChar sep s = [s] := by
  intro s
  induction s with
  | nil => intro _; rfl
  | cons c cs ih =>
    intro h
    have hc : c ≠ sep := by
      intro e
      exact h (e ▸ List.mem_cons_self c cs)
    have hcs : sep ∉ cs := fun m => h (List.mem_cons_of_mem c m)
    simp only [splitOnChar, if_neg hc, ih hcs]

theorem splitOnChar_trailing_empty (sep : Char) :
    ∀ s : Str, (splitOnChar sep s).getLastD [] = [] ↔ (s = [] ∨ s.getLast? = some sep) := by
  intro s
  induction s with
  | nil => simp [splitOnChar]
  | cons c cs ih =>
    cases cs with
    | nil =>
      by_cases hc : c = sep
      · subst hc
        rw [splitOnChar_cons_sep]
        simp [splitOnChar, List.getLastD_cons]
      · rw [splitOnChar_cons_ne sep c [] hc [] [] rfl]
        simp [List.getLastD_cons, hc]
    | cons d ds =>
      by_cases hc : c = sep
      · subst hc
        rw [splitOnChar_cons_sep, List.getLastD_cons, ih]
        simp [List.getLast?_cons_cons]
      · cases hL : splitOnChar sep (d :: ds) with
        | nil => exact absurd hL (splitOnChar_ne_nil sep _)
        | cons p ps =>
          rw [splitOnChar_cons_ne sep c (d :: ds) hc p ps hL]
          rw [hL] at ih
          cases ps with
          | nil =>
            simp only [List.getLastD_cons, List.getLastD_nil]
            constructor
            · intro h
              exact absurd h (List.cons_ne_nil c p)
            · intro h
              rcases h with h | h
              · exact absurd h (List.cons_ne_nil c (d :: ds))
              · exfalso
                rw [List.getLast?_cons_cons] at h
                have hne : (d :: ds : Str) ≠ [] := List.cons_ne_nil d ds
                have hlast : (d :: ds).getLast hne = sep := by
                  have hq := List.getLast?_eq_getLast (d :: ds) hne
                  rw [hq] at h
                  injection h
                have hdec : (d :: ds : Str) = (d :: ds).dropLast ++ [sep] := by
                  conv_lhs => rw [← List.dropLast_append_getLast hne]
                  rw [hlast]
                have hlen := splitOnChar_length_two sep [] (d :: ds).dropLast
                rw [← hdec] at hlen
                rw [hL] at hlen
                simp at hlen
          | cons q qs =>
            rw [List.getLastD_cons, List.getLastD_cons]
            rw [List.getLastD_cons, List.getLastD_cons] at ih
            rw [ih]
            simp [List.getLast?_cons_cons]

theorem getLastSegment_append (A name : Str) (h1 : name ≠ []) (h2 : '/' ∉ name) :
    getLastSegment (A ++ '/' :: name) '/' = Except.ok name := by
  unfold getLastSegment
  rw [splitOnChar_append_sep '/' name A, splitOnChar_no_sep '/' name h2]
  simp [h1]

/-- Claim C6: extracting the last `/`-separated segment of the machine
    identifier built by `getStandardMachineID` returns exactly the machine
    name (non-empty, slash-free); and `getLastSegment` fails exactly when the
    identifier's trailing segment is empty, i.e. when the identifier is empty
    or ends in the separator. -/
theorem machineID_roundtrip (subscriptionID resourceGroup machineName : Str)
    (h1 : machineName ≠ []) (h2 : '/' ∉ machineName) :
    getLastSegment (getStandardMachineID subscriptionID resourceGroup machineName) '/' =
      Except.ok machineName ∧
    ∀ id : Str, (∃ e, getLastSegment id '/' = Except.error e) ↔
      (id = [] ∨ id.getLast? = some '/') := by
  constructor
  · have hform : getStandardMachineID subscriptionID resourceGroup machineName =
        ("/subscriptions/".data ++ subscriptionID ++ "/resourceGroups/".data ++
          strToLower resourceGroup ++
          "/providers/Microsoft.Compute/virtualMachines".data) ++ '/' :: machineName := by
      unfold getStandardMachineID
      rw [(by decide : ("/providers/Microsoft.Compute/virtualMachines/".data : Str) =
        "/providers/Microsoft.Compute/virtualMachines".data ++ ['/'])]
      simp [List.append_assoc]
    rw [hform]
    exact getLastSegment_append _ machineName h1 h2
  · intro id
    unfold getLastSegment
    by_cases hE : (splitOnChar '/' id).getLastD [] = []
    · rw [if_pos hE]
      simp only [Except.error.injEq, exists_eq']
      constructor
      · intro _
        exact (splitOnChar_trailing_empty '/' id).mp hE
      · intro _
        trivial
    · rw [if_neg hE]
      constructor
      · intro h
        rcases h with ⟨e, he⟩
        exact absurd he (by simp)
      · intro h
        exact absurd ((splitOnChar_trailing_empty '/' id).mpr h) hE

/-- Witness for claim C6 at a concrete machine identifier. -/
theorem machineID_roundtrip_witness :
    getLastSegment (getStandardMachineID "sub1".data "RG-X".data "vm1".data) '/' =
      Except.ok "vm1".data :=
  (machineID_roundtrip "sub1".data "RG-X".data "vm1".data (by decide) (by decide)).1

theorem poolScanFound_mem (target : Str) :
    ∀ pools : List BackendAddressPool,
      (∀ p ∈ pools, p.id ≠ none) →
      (∃ p ∈ pools, ∃ i, p.id = some i ∧ eqFold target i = true) →
      poolScanFound target pools = some true := by
  intro pools
  induction pools with
  | nil =>
    intro _ hex
    rcases hex with ⟨p, hp, _⟩
    exact absurd hp (List.not_mem_nil p)
  | cons p ps ih =>
    intro hall hex
    have hid := hall p (List.mem_cons_self p ps)
    cases hpid : p.id with
    | none => exact absurd hpid hid
    | some i =>
      simp only [poolScanFound, hpid]
      by_cases he : eqFold target i = true
      · rw [if_pos he]
      · rw [if_neg he]
        apply ih (fun q hq => hall q (List.mem_cons_of_mem p hq))
        rcases hex with ⟨q, hq, j, hqid, hej⟩
        rcases List.mem_cons.mp hq with rfl | hq'
        · rw [hpid] at hqid
          injection hqid with hij
          rw [← hij] at hej
          exact absurd hej he
        · exact ⟨q, hq', j, hqid, hej⟩

theorem poolScanFound_absent (target : Str) :
    ∀ pools : List BackendAddressPool,
      (∀ p ∈ pools, ∃ i, p.id = some i ∧ eqFold target i = false) →
      poolScanFound target pools = some false := by
  intro pools
  induction pools with
  | nil => intro _; rfl
  | cons p ps ih =>
    intro hall
    rcases hall p (List.mem_cons_self p ps) with ⟨i, hpid, he⟩
    simp only [poolScanFound, hpid]
    rw [if_neg (by rw [he]; exact Bool.false_ne_true)]
    exact ih (fun q hq => hall q (List.mem_cons_of_mem p hq))

/-- Claim C1: when the target backend-pool id is already present (compared
    case-insensitively) among the resolved primary IP configuration's
    memberships, `EnsureHostInPool` issues no interface update and returns a
    nil error, whatever the write collaborator would have answered — hence a
    second call with the same pool id is a no-op. -/
theorem ensureHostInPool_noop_when_present
    (ipv6DualStackEnabled useStandardLoadBalancer : Bool)
    (clusterIP backendPoolID : Str) (nic : NetworkInterface)
    (cfg : InterfaceIPConfiguration) (updateResult : Option Str)
    (hstate : nic.provisioningState ≠ some nicFailedState)
    (hcfg : resolveIPConfig ipv6DualStackEnabled (isIPv6String clusterIP) nic = GoR.ok cfg)
    (hids : ∀ p ∈ cfg.loadBalancerBackendAddressPools.getD [], p.id ≠ none)
    (hmem : ∃ p ∈ cfg.loadBalancerBackendAddressPools.getD [],
      ∃ i, p.id = some i ∧ eqFold backendPoolID i = true) :
    EnsureHostInPool ipv6DualStackEnabled useStandardLoadBalancer clusterIP backendPoolID
      (FetchResult.ok nic) updateResult = some ⟨false, none⟩ := by
  have hscan := poolScanFound_mem backendPoolID _ hids hmem
  simp [EnsureHostInPool, hstate, hcfg, hscan]

/-- Witness for claim C1: a pool already held (with different casing) is not
    re-added even when the write collaborator would fail. -/
theorem ensureHostInPool_noop_when_present_witness :
    EnsureHostInPool false true "10.0.0.1".data "poolX".data
      (FetchResult.ok ⟨"nic1".data, none,
        some [⟨some true, some "ip".data, IPVersion.v4, some [⟨some "POOLX".data⟩]⟩]⟩)
      (some "update failed".data) = some ⟨false, none⟩ :=
  ensureHostInPool_noop_when_present false true "10.0.0.1".data "poolX".data
    ⟨"nic1".data, none,
      some [⟨some true, some "ip".data, IPVersion.v4, some [⟨some "POOLX".data⟩]⟩]⟩
    ⟨some true, some "ip".data, IPVersion.v4, some [⟨some "POOLX".data⟩]⟩
    (some "update failed".data)
    (by decide) (by decide) (by decide) (by decide)

theorem sameLBLoop_diff (newLBName : Str) :
    ∀ ids : List Str,
      (∀ i ∈ ids, ∃ lb, extractLBNameFromBackendPoolID i = some lb) →
      (∃ i ∈ ids, ∃ lb, extractLBNameFromBackendPoolID i = some lb ∧
        eqFold lb newLBName = false) →
      ∃ bad, sameLBLoop newLBName ids = Except.ok (false, bad) := by
  intro ids
  induction ids with
  | nil =>
    intro _ hex
    rcases hex with ⟨i, hi, _⟩
    exact absurd hi (List.not_mem_nil i)
  | cons i rest ih =>
    intro hall hex
    rcases hall i (List.mem_cons_self i rest) with ⟨lb, hlb⟩
    simp only [sameLBLoop, hlb]
    by_cases he : eqFold lb newLBName = true
    · rw [if_pos he]
      apply ih (fun j hj => hall j (List.mem_cons_of_mem i hj))
      rcases hex with ⟨j, hj, lbj, hlbj, hej⟩
      rcases List.mem_cons.mp hj with rfl | hj'
      · rw [hlb] at hlbj
        injection hlbj with hx
        rw [← hx] at hej
        rw [he] at hej
        simp at hej
      · exact ⟨j, hj', lbj, hlbj, hej⟩
    · rw [if_neg he]
      exact ⟨lb, rfl⟩

/-- Claim C2: under the standard SKU, when the resolved primary IP
    configuration already holds a membership whose parent load balancer
    differs from the target pool's parent, `EnsureHostInPool` skips the node:
    no interface update is issued and a nil error is returned. -/
theorem ensureHostInPool_skips_other_lb
    (ipv6DualStackEnabled : Bool) (clusterIP backendPoolID : Str)
    (nic : NetworkInterface) (cfg : InterfaceIPConfiguration)
    (updateResult : Option Str) (targetLB : Str)
    (hstate : nic.provisioningState ≠ some nicFailedState)
    (hcfg : resolveIPConfig ipv6DualStackEnabled (isIPv6String clusterIP) nic = GoR.ok cfg)
    (hnot : ∀ p ∈ cfg.loadBalancerBackendAddressPools.getD [],
      ∃ i, p.id = some i ∧ eqFold backendPoolID i = false)
    (htgt : extractLBNameFromBackendPoolID backendPoolID = some targetLB)
    (hparse : ∀ i ∈ (cfg.loadBalancerBackendAddressPools.getD []).filterMap
        BackendAddressPool.id,
      ∃ lb, extractLBNameFromBackendPoolID i = some lb)
    (hdiff : ∃ i ∈ (cfg.loadBalancerBackendAddressPools.getD []).filterMap
        BackendAddressPool.id,
      ∃ lb, extractLBNameFromBackendPoolID i = some lb ∧ eqFold lb targetLB = false) :
    EnsureHostInPool ipv6DualStackEnabled true clusterIP backendPoolID
      (FetchResult.ok nic) updateResult = some ⟨false, none⟩ := by
  have hscan := poolScanFound_absent backendPoolID _ hnot
  obtain ⟨bad, hloop⟩ := sameLBLoop_diff targetLB _ hparse hdiff
  have hlen : 0 < (cfg.loadBalancerBackendAddressPools.getD []).length := by
    rcases hdiff with ⟨i, hi, _⟩
    rcases List.mem_filterMap.mp hi with ⟨p, hp, _⟩
    exact List.length_pos.mpr (List.ne_nil_of_mem hp)
  simp [EnsureHostInPool, hstate, hcfg, hscan, isBackendPoolOnSameLB, htgt, hloop, hlen]

/-- Witness for claim C2: an interface already attached to a pool of `lb1` is
    skipped when asked to join a pool of `lb2`. -/
theorem ensureHostInPool_skips_other_lb_witness :
    EnsureHostInPool false true "10.0.0.1".data
      "/subscriptions/s/resourceGroups/g/providers/Microsoft.Network/loadBalancers/lb2/backendAddressPools/p".data
      (FetchResult.ok ⟨"nic1".data, none,
        some [⟨some true, some "ip".data, IPVersion.v4,
          some [⟨some "/subscriptions/s/resourceGroups/g/providers/Microsoft.Network/loadBalancers/lb1/backendAddressPools/q".data⟩]⟩]⟩)
      (some "update failed".data) = some ⟨false, none⟩ :=
  ensureHostInPool_skips_other_lb false "10.0.0.1".data
    "/subscriptions/s/resourceGroups/g/providers/Microsoft.Network/loadBalancers/lb2/backendAddressPools/p".data
    ⟨"nic1".data, none,
      some [⟨some true, some "ip".data, IPVersion.v4,
        some [⟨some "/subscriptions/s/resourceGroups/g/providers/Microsoft.Network/loadBalancers/lb1/backendAddressPools/q".data⟩]⟩]⟩
    ⟨some true, some "ip".data, IPVersion.v4,
      some [⟨some "/subscriptions/s/resourceGroups/g/providers/Microsoft.Network/loadBalancers/lb1/backendAddressPools/q".data⟩]⟩
    (some "update failed".data) "lb2".data
    (by decide) (by decide)
    (fun p hp => by
      have hx := List.mem_singleton.mp hp
      subst hx
      exact ⟨"/subscriptions/s/resourceGroups/g/providers/Microsoft.Network/loadBalancers/lb1/backendAddressPools/q".data,
        rfl, by decide⟩)
    (by decide)
    (fun i hi => by
      have hx := List.mem_singleton.mp hi
      subst hx
      exact ⟨"lb1".data, by decide⟩)
    ⟨"/subscriptions/s/resourceGroups/g/providers/Microsoft.Network/loadBalancers/lb1/backendAddressPools/q".data,
      List.mem_singleton.mpr rfl, "lb1".data, by decide, by decide⟩

/-- Claim C10: with a subnet present, `getLoadBalancerRuleName` hits the
    negative slice index (a Go out-of-range panic, modelled as `none`) exactly
    when the untruncated base name `"<prefix>-<protocol>-<port>"` already has
    80 or more characters; without a subnet it is total and returns the base
    name. -/
theorem getLoadBalancerRuleName_panic_iff (rulePre protocol : Str) (port : Int)
    (subnetName : Str) :
    (getLoadBalancerRuleName rulePre protocol port (some subnetName) = none ↔
      80 ≤ (baseRuleName rulePre protocol port).length) ∧
    getLoadBalancerRuleName rulePre protocol port none =
      some (baseRuleName rulePre protocol port) := by
  constructor
  · simp only [getLoadBalancerRuleName]
    by_cases hg : 80 < (baseRuleName rulePre protocol port).length + subnetName.length + 1
    · rw [if_pos hg]
      by_cases hk : ((80 : Int) - (baseRuleName rulePre protocol port).length - 1) < 0
      · rw [if_pos hk]
        constructor
        · intro _
          omega
        · intro _
          rfl
      · rw [if_neg hk]
        constructor
        · intro h
          exact absurd h (by simp)
        · intro h
          omega
    · rw [if_neg hg]
      constructor
      · intro h
        exact absurd h (by simp)
      · intro h
        omega
  · rfl

/-- Witness for claim C10: an 80-character base name with a subnet present
    panics. -/
theorem getLoadBalancerRuleName_panic_iff_witness :
    getLoadBalancerRuleName
      "aaaaaaaaaaaaaaaaaaaaaaaaaaaaaaaaaaaaaaaaaaaaaaaaaaaaaaaaaaaaaaaaaaaaaaaaaa".data
      "TCP".data 80 (some "sub".data) = none :=
  (getLoadBalancerRuleName_panic_iff
    "aaaaaaaaaaaaaaaaaaaaaaaaaaaaaaaaaaaaaaaaaaaaaaaaaaaaaaaaaaaaaaaaaaaaaaaaaa".data
    "TCP".data 80 "sub".data).1.mpr (by decide)

/-- Claim C7: without a subnet the rule name is exactly
    `"<prefix>-<protocol>-<port>"`; with a subnet, every returned rule name
    has at most 80 characters and keeps the prefix and the
    `-<protocol>-<port>` suffix intact, any truncation taking characters only
    from the tail of the subnet segment. -/
theorem getLoadBalancerRuleName_structure (rulePre protocol : Str) (port : Int) :
    getLoadBalancerRuleName rulePre protocol port none =
      some (baseRuleName rulePre protocol port) ∧
    ∀ subnetName name : Str,
      getLoadBalancerRuleName rulePre protocol port (some subnetName) = some name →
      name.length ≤ 80 ∧
      ∃ n, name = rulePre ++ "-".data ++ subnetName.take n ++ "-".data ++
        protocol ++ "-".data ++ intToStr port := by
  refine ⟨rfl, ?_⟩
  intro subnetName name h
  simp only [getLoadBalancerRuleName] at h
  by_cases hg : 80 < (baseRuleName rulePre protocol port).length + subnetName.length + 1
  · rw [if_pos hg] at h
    by_cases hk : ((80 : Int) - (baseRuleName rulePre protocol port).length - 1) < 0
    · rw [if_pos hk] at h
      exact absurd h (by simp)
    · rw [if_neg hk] at h
      injection h with h'
      subst h'
      have hbase : (baseRuleName rulePre protocol port).length =
          rulePre.length + 1 + protocol.length + 1 + (intToStr port).length := by
        simp only [baseRuleName, List.length_append, List.length_cons, List.length_nil]
      have htake : (subnetName.take ((80 : Int) -
          (baseRuleName rulePre protocol port).length - 1).toNat).length =
          ((80 : Int) - (baseRuleName rulePre protocol port).length - 1).toNat := by
        rw [List.length_take]
        have hs : ((80 : Int) - (baseRuleName rulePre protocol port).length - 1).toNat ≤
            subnetName.length := by
          omega
        omega
      constructor
      · simp only [List.length_append, List.length_cons, List.length_nil, htake]
        omega
      · exact ⟨((80 : Int) - (baseRuleName rulePre protocol port).length - 1).toNat, rfl⟩
  · rw [if_neg hg] at h
    injection h with h'
    subst h'
    have hbase : (baseRuleName rulePre protocol port).length =
        rulePre.length + 1 + protocol.length + 1 + (intToStr port).length := by
      simp only [baseRuleName, List.length_append, List.length_cons, List.length_nil]
    constructor
    · simp only [List.length_append, List.length_cons, List.length_nil]
      omega
    · refine ⟨subnetName.length, ?_⟩
      rw [List.take_length]

/-- Witness for claim C7: a 40-character subnet segment is tail-truncated to
    keep the name at 80 characters with the protocol and port intact. -/
theorem getLoadBalancerRuleName_structure_witness :
    ("aaaaaaaaaaaaaaaaaaaaaaaaaaaaaaaaaaaaaaaaaaaaaaaaaaaaaaaaaaaa-bbbbbbbbbbbb-TCP-80".data).length ≤ 80 ∧
    ∃ n, "aaaaaaaaaaaaaaaaaaaaaaaaaaaaaaaaaaaaaaaaaaaaaaaaaaaaaaaaaaaa-bbbbbbbbbbbb-TCP-80".data =
      "aaaaaaaaaaaaaaaaaaaaaaaaaaaaaaaaaaaaaaaaaaaaaaaaaaaaaaaaaaaa".data ++ "-".data ++
        ("bbbbbbbbbbbbbbbbbbbbbbbbbbbbbbbbbbbbbbbb".data).take n ++ "-".data ++
        "TCP".data ++ "-".data ++ intToStr 80 :=
  (getLoadBalancerRuleName_structure
    "aaaaaaaaaaaaaaaaaaaaaaaaaaaaaaaaaaaaaaaaaaaaaaaaaaaaaaaaaaaa".data
    "TCP".data 80).2 "bbbbbbbbbbbbbbbbbbbbbbbbbbbbbbbbbbbbbbbb".data
    "aaaaaaaaaaaaaaaaaaaaaaaaaaaaaaaaaaaaaaaaaaaaaaaaaaaaaaaaaaaa-bbbbbbbbbbbb-TCP-80".data
    (by decide)

/-- Claim C8: `getBackendPoolName` returns the cluster name exactly when the
    service's cluster IP is not an IPv6 literal, and `"<clusterName>-IPv6"`
    exactly when it is; concretely `"foo"`/IPv4 gives `"foo"` and
    `"foo"`/`"2001:db8::1"` gives `"foo-IPv6"`. -/
theorem getBackendPoolName_correct (clusterName clusterIP : Str) :
    (getBackendPoolName clusterName clusterIP = clusterName ↔
      isIPv6String clusterIP = false) ∧
    (getBackendPoolName clusterName clusterIP = clusterName ++ "-IPv6".data ↔
      isIPv6String clusterIP = true) ∧
    getBackendPoolName "foo".data "2001:db8::1".data = "foo-IPv6".data ∧
    getBackendPoolName "foo".data "10.0.0.1".data = "foo".data := by
  have hne : clusterName ++ "-IPv6".data ≠ clusterName := by
    intro heq
    have hlen := congrArg List.length heq
    rw [List.length_append] at hlen
    simp at hlen
  refine ⟨?_, ?_, by decide, by decide⟩
  · constructor
    · intro heq
      cases hb : isIPv6String clusterIP
      · rfl
      · unfold getBackendPoolName at heq
        rw [if_pos hb] at heq
        exact absurd heq hne
    · intro hf
      unfold getBackendPoolName
      rw [if_neg (by simp [hf])]
  · constructor
    · intro heq
      cases hb : isIPv6String clusterIP
      · unfold getBackendPoolName at heq
        rw [if_neg (by simp [hb])] at heq
        exact absurd heq.symm hne
      · rfl
    · intro ht
      unfold getBackendPoolName
      rw [if_pos ht]

/-- Witness for claim C8 at the concrete IPv6 service. -/
theorem getBackendPoolName_correct_witness :
    getBackendPoolName "foo".data "2001:db8::1".data = "foo".data ++ "-IPv6".data :=
  (getBackendPoolName_correct "foo".data "2001:db8::1".data).2.1.mpr (by decide)

/-- Claim C9: `serviceOwnsRule` holds exactly when the rule name extends the
    derived prefix up to case (a case-insensitive prefix check), while
    `serviceOwnsFrontendIP` holds exactly when the frontend-IP-configuration
    name literally extends the derived base name (case-sensitive); the pair
    `("abc", "ABCd")` separates the two. -/
theorem serviceOwns_asymmetry (rulePre rule baseName fipName : Str) :
    (serviceOwnsRule rulePre rule = true ↔
      ∃ r1 r2, rule = r1 ++ r2 ∧ eqFold rulePre r1 = true) ∧
    (serviceOwnsFrontendIP baseName fipName = true ↔ ∃ t, fipName = baseName ++ t) ∧
    serviceOwnsRule "abc".data "ABCd".data = true ∧
    serviceOwnsFrontendIP "abc".data "ABCd".data = false := by
  refine ⟨?_, ?_, by decide, by decide⟩
  · unfold serviceOwnsRule strStartsWith
    rw [List.isPrefixOf_iff_prefix]
    constructor
    · rintro ⟨t, ht⟩
      refine ⟨rule.take rulePre.length, rule.drop rulePre.length,
        (List.take_append_drop _ _).symm, ?_⟩
      unfold eqFold
      rw [beq_iff_eq]
      unfold strToUpper at ht ⊢
      rw [List.map_take, ← ht]
      rw [← List.length_map rulePre goToUpper, List.take_left]
    · rintro ⟨r1, r2, hr, he⟩
      subst hr
      unfold eqFold at he
      rw [beq_iff_eq] at he
      unfold strToUpper at he ⊢
      rw [List.map_append, ← he]
      exact ⟨List.map goToUpper r2, rfl⟩
  · unfold serviceOwnsFrontendIP strStartsWith
    rw [List.isPrefixOf_iff_prefix]
    constructor
    · rintro ⟨t, ht⟩
      exact ⟨t, ht.symm⟩
    · rintro ⟨t, ht⟩
      exact ⟨t, ht.symm⟩

/-- Witness for claim C9: the case-insensitive rule ownership at
    `("abc", "ABCd")` produces the case-folded split. -/
theorem serviceOwns_asymmetry_witness :
    ∃ r1 r2, "ABCd".data = r1 ++ r2 ∧ eqFold "abc".data r1 = true :=
  (serviceOwns_asymmetry "abc".data "ABCd".data "x".data "y".data).1.mp (by decide)

/-- Claim C4 (code bug): with the explicit mode list `["as-a","as-c"]` over
    nodes backed by the groups `as-a` and `as-b`, the entry `"as-c"` matches
    no group, yet `GetVMSetNames` succeeds and returns `["as-a","as-c"]`
    instead of failing with the not-found error: the source's `found` flag is
    declared outside the validation loop (azure_standard.go:647), so the match
    on the first entry suppresses the error for every later entry. -/
theorem getVMSetNames_stale_found_flag :
    GetVMSetNames "pas".data
      [⟨"n1".data, some "/subscriptions/s/resourceGroups/g/providers/Microsoft.Compute/availabilitySets/as-a".data⟩,
       ⟨"n2".data, some "/subscriptions/s/resourceGroups/g/providers/Microsoft.Compute/availabilitySets/as-b".data⟩]
      (LBMode.namedSets ["as-a".data, "as-c".data])
      [⟨"n1".data, []⟩, ⟨"n2".data, []⟩] =
    Except.ok ["as-a".data, "as-c".data] := by decide

/-- Claim C5 (code bug): in auto mode, two nodes of the same availability set
    yield that set's name twice — `GetVMSetNames` returns
    `["as-a","as-a"]`, not the deduplicated `["as-a"]`: the source's
    `availabilitySetIDs` set is consulted (azure_standard.go:602) but never
    inserted into, so the duplicate check never fires. -/
theorem getVMSetNames_duplicate_groups :
    GetVMSetNames "pas".data
      [⟨"n1".data, some "/subscriptions/s/resourceGroups/g/providers/Microsoft.Compute/availabilitySets/as-a".data⟩,
       ⟨"n2".data, some "/subscriptions/s/resourceGroups/g/providers/Microsoft.Compute/availabilitySets/as-a".data⟩]
      LBMode.autoMode
      [⟨"n1".data, []⟩, ⟨"n2".data, []⟩] =
    Except.ok ["as-a".data, "as-a".data] := by decide

end AzureStandard
